import Mathlib

/-!
Verification of `examples/usbcat/device.py` from python-functionfs.

The program is a bidirectional byte relay between a local process and a USB
host.  Its core is the `USBCat` class: a pool of `PENDING_READ_COUNT`
asynchronous read blocks against the OUT endpoint, lifecycle callbacks
(`onBind` / `onUnbind` / `onEnable` / `onDisable`), an eventfd-driven AIO
completion handler, and a retry-on-EINTR epoll wrapper in `main`.

We shallowly embed each handler as a pure function from the object's mutable
state (`_enabled`, the fixed block list) to a new state plus a list of
observable effects (AIO submissions, cancellation requests, trace lines,
sink writes, eventfd reads, event collection).  Kernel-side slot bookkeeping
(how many read operations are outstanding per slot) is modelled by a small
transition system driven by the handler semantics, in which a completion may
carry any result code at any time — covering kernel-initiated shutdown
aborts, the already-complete cancellation race and stray enable signals.
-/

/-- `PENDING_READ_COUNT = 2` from device.py line 29. -/
def PENDING_READ_COUNT : Nat := 2

/-- `BUF_SIZE = 1024 * 1024` from device.py line 31. -/
def BUF_SIZE : Nat := 1024 * 1024

/-- Linux `errno.EINTR`. -/
def EINTR : Int := 4

/-- Linux `errno.ESHUTDOWN`. -/
def ESHUTDOWN : Int := 108

/-- Observable side effects of the handlers: AIO submissions (by block index),
cancellation requests, stderr trace lines, writes to the local sink
(`self._writer`), reads of the eventfd counter, and `getEvents` calls with
their optional requested event count. -/
inductive Effect where
  | traceMsg (msg : String)
  | submit (blocks : List Nat)
  | cancel (block : Nat)
  | writerWrite (payload : List Nat)
  | eventfdRead
  | getEvents (nr : Option Nat)
  deriving DecidableEq, Repr

/-- One `libaio.AIOBlock` of the receive pool: we keep only the field the
claims are about, its single owned buffer (`buffer_list[0]`), a byte list. -/
structure AIOBlock where
  buffer : List Nat
  deriving DecidableEq, Repr

/-- The receive pool built in `USBCat.__init__` (device.py lines 73-83): one
block per pending read, each with a fresh zeroed `bytearray(BUF_SIZE)`. -/
def mkAioRecvBlockList : List AIOBlock :=
  (List.range PENDING_READ_COUNT).map fun _ => ⟨List.replicate BUF_SIZE 0⟩

/-- Shallow embedding of `USBCat._onReceived(block, res, res2)`
(device.py lines 145-153).  `blockIdx` names the block for the submission
effect; `res` is the AIO result code.  The code:
if `res != -ESHUTDOWN`, resubmit `[block]`; then if `res < 0` trace the
error, else trace and call `self._writer(block.buffer_list[0][:res])`.
The block (hence its buffer) is never reassigned, so it is returned as is. -/
def onReceived (blockIdx : Nat) (block : AIOBlock) (res : Int) :
    AIOBlock × List Effect :=
  ( block,
    (if res ≠ -ESHUTDOWN then [Effect.submit [blockIdx]] else [])
      ++ (if res < 0 then
            [Effect.traceMsg "aio read completion error"]
          else
            [Effect.traceMsg "aio read completion received",
             Effect.writerWrite (block.buffer.take res.toNat)]) )

/-- How many times block `b` is submitted across a list of effects
(counting multiplicity inside each submission list). -/
def submissionsOf (b : Nat) (effs : List Effect) : Nat :=
  (effs.map fun e =>
    match e with
    | Effect.submit l => l.count b
    | _ => 0).sum

/-- The payloads passed to the local sink (`self._writer`) by a list of
effects, in order. -/
def sinkWrites (effs : List Effect) : List (List Nat) :=
  effs.filterMap fun e =>
    match e with
    | Effect.writerWrite p => some p
    | _ => none

/-- True when an effect list contains no cancellation request. -/
def noCancel (effs : List Effect) : Bool :=
  effs.all fun e =>
    match e with
    | Effect.cancel _ => false
    | _ => true

/-- The block lists passed to `submit` calls by a list of effects,
in order. -/
def submitsIn (effs : List Effect) : List (List Nat) :=
  effs.filterMap fun e =>
    match e with
    | Effect.submit l => some l
    | _ => none

/-- The mutable state of a `USBCat` instance that the lifecycle handlers
touch: the `_enabled` flag, the fixed receive block list
(`_aio_recv_block_list`), and whether the AIO context is still open
(closed only by `close`, never by the handlers). -/
structure CatState where
  enabled : Bool
  recvBlockList : List AIOBlock
  aioContextOpen : Bool
  deriving DecidableEq, Repr

/-- Shallow embedding of `USBCat._disable` (device.py lines 121-134).
If `_enabled`, issue a cancellation request for every block of the pool in
order; a request that raises `OSError` (modelled by the environment oracle
`cancelFails`) is caught and only traced, and the loop continues; then
`_enabled` is cleared.  If not `_enabled`, nothing happens.  The function is
total: no exception escapes. -/
def disableStep (cancelFails : Nat → Bool) (s : CatState) :
    CatState × List Effect :=
  if s.enabled then
    ( { s with enabled := false },
      (List.range s.recvBlockList.length).flatMap fun i =>
        Effect.cancel i ::
          (if cancelFails i then [Effect.traceMsg "cancelling raised"] else []) )
  else
    (s, [])

/-- Shallow embedding of `USBCat.onEnable` (device.py lines 107-115):
trace, `self._disable()`, `self._aio_context.submit(self._aio_recv_block_list)`,
`self._enabled = True`. -/
def onEnableStep (cancelFails : Nat → Bool) (s : CatState) :
    CatState × List Effect :=
  let d := disableStep cancelFails s
  ( { d.1 with enabled := true },
    Effect.traceMsg "onEnable" ::
      d.2 ++ [Effect.submit (List.range s.recvBlockList.length)] )

/-- Shallow embedding of `USBCat.onDisable` (device.py lines 117-119):
trace, then `self._disable()`. -/
def onDisableStep (cancelFails : Nat → Bool) (s : CatState) :
    CatState × List Effect :=
  let d := disableStep cancelFails s
  (d.1, Effect.traceMsg "onDisable" :: d.2)

/-- Shallow embedding of `USBCat.onUnbind` (device.py lines 97-105):
trace, then `self._enabled = False`.  No cancellation, nothing else. -/
def onUnbindStep (s : CatState) : CatState × List Effect :=
  ({ s with enabled := false }, [Effect.traceMsg "onUnbind"])

/-- Shallow embedding of `USBCat.onAIOCompletion` (device.py lines 136-143):
read (and discard) the eventfd counter, trace it, then
`self._aio_context.getEvents()` with no requested count (the source comments
that requesting the exact number sometimes blocks). -/
def onAIOCompletionStep (eventCount : Nat) : List Effect :=
  [Effect.eventfdRead,
   Effect.traceMsg ("eventfd reports " ++ toString eventCount ++ " events"),
   Effect.getEvents Option.none]

/-- One attempt of `epoll.poll()`: either a ready list of
(fd, eventmask) pairs, or an `IOError` with the given errno. -/
inductive PollResult where
  | ready (events : List (Nat × Nat))
  | ioError (errnoCode : Int)
  deriving DecidableEq, Repr

/-- Shallow embedding of `main.noIntrEpoll` (device.py lines 166-172) over a
sequence of outcomes of successive `epoll.poll()` attempts: a ready result is
returned; an `IOError` with errno different from `EINTR` is re-raised
(`Except.error`); an `EINTR` error retries with the next attempt.  `none`
means the attempt list was exhausted with the loop still running. -/
def noIntrEpoll : List PollResult → Option (Except Int (List (Nat × Nat)))
  | [] => none
  | PollResult.ready evs :: _ => some (Except.ok evs)
  | PollResult.ioError e :: rest =>
      if e ≠ EINTR then some (Except.error e) else noIntrEpoll rest

/-- Joint state of the `_enabled` flag and, per read slot of the two-slot
pool (`PENDING_READ_COUNT = 2`), the number of operations the kernel still
owes a completion for.  Normally 0 or 1 per slot; a stray enable delivered
while an operation is still outstanding re-submits the block, represented
by a count above 1. -/
structure SysState where
  enabled : Bool
  pending0 : Nat
  pending1 : Nat
  deriving DecidableEq, Repr

/-- Events processed by the single-threaded loop: the three lifecycle signals
that touch the pool, and the delivery of one AIO completion for slot `i`
with result code `res`. -/
inductive Ev where
  | enable
  | disable
  | unbind
  | complete (i : Nat) (res : Int)
  deriving DecidableEq, Repr

/-- Number of read operations `_onReceived` submits for slot `i` when a
completion carries result `res`, read off the handler embedding
`onReceived` (the buffer contents play no role in that decision). -/
def resubmitCount (i : Nat) (res : Int) : Nat :=
  submissionsOf i (onReceived i ⟨[]⟩ res).2

/-- One step of the loop.  Only a structural constraint restricts delivery
(`none`): a completion needs a slot of the pool with an operation
outstanding.  Everything else may arrive at any time:
* `enable` — stray enables included, also while already enabled or during a
  cancellation drain — runs `onEnable`: `_disable` first, whose cancellation
  requests change no outstanding count (each cancelled, aborted or raced
  operation still gets its completion delivered later), then one submission
  per slot of the pool, then the flag is set;
* `disable` runs `onDisable`, i.e. `_disable`: cancellation requests only,
  so the outstanding counts are unchanged and the flag is cleared;
* `unbind` runs `onUnbind`: only the flag is cleared, the kernel's own
  cancellations again leaving the completions to be delivered later;
* `complete i res` delivers one outstanding completion with `res`
  unconstrained — success, transient error, shutdown-abort initiated by the
  kernel or by a cancellation, or the raced successful completion of an
  already-complete cancelled operation — after which `_onReceived` submits
  `resubmitCount i res` fresh operations on that slot. -/
def stepEv : Ev → SysState → Option SysState
  | Ev.enable, s =>
      some { enabled := true,
             pending0 := s.pending0 + 1, pending1 := s.pending1 + 1 }
  | Ev.disable, s => some { s with enabled := false }
  | Ev.unbind, s => some { s with enabled := false }
  | Ev.complete i res, s =>
      if i = 0 then
        if s.pending0 = 0 then none
        else some { s with pending0 := s.pending0 - 1 + resubmitCount i res }
      else if i = 1 then
        if s.pending1 = 0 then none
        else some { s with pending1 := s.pending1 - 1 + resubmitCount i res }
      else none

/-- Initial state: constructed but not enabled, nothing submitted. -/
def initSys : SysState :=
  { enabled := false, pending0 := 0, pending1 := 0 }

/-- Run a sequence of events from a state; `none` if some event is not
deliverable. -/
def runTrace : List Ev → SysState → Option SysState
  | [], s => some s
  | e :: rest, s =>
      match stepEv e s with
      | some s' => runTrace rest s'
      | none => none

/-- Number of read slots with at least one operation in flight. -/
def inflightCount (s : SysState) : Nat :=
  (if s.pending0 = 0 then 0 else 1) + (if s.pending1 = 0 then 0 else 1)

/-- Total number of outstanding read operations across the pool. -/
def totalPending (s : SysState) : Nat :=
  s.pending0 + s.pending1

/-- The completion sequence delivering a shutdown-abort to every operation
outstanding in a state — what a disabled or unbound endpoint eventually
does to every read still queued against it, resubmitted ones included. -/
def shutdownDrain (s : SysState) : List Ev :=
  List.replicate s.pending0 (Ev.complete 0 (-ESHUTDOWN))
    ++ List.replicate s.pending1 (Ev.complete 1 (-ESHUTDOWN))

lemma neg_ESHUTDOWN_lt_zero : -ESHUTDOWN < 0 := by
  simp [ESHUTDOWN]

/-- C1: a completion whose result is the shutdown-abort code `-ESHUTDOWN`
retires the slot (zero resubmissions of that block); any other result,
success or error, resubmits exactly that block exactly once. -/
theorem onReceived_resubmit_policy (i : Nat) (blk : AIOBlock) (res : Int) :
    (res = -ESHUTDOWN → submissionsOf i (onReceived i blk res).2 = 0) ∧
    (res ≠ -ESHUTDOWN → submissionsOf i (onReceived i blk res).2 = 1) := by
  constructor
  · intro h
    subst h
    simp [onReceived, submissionsOf, ESHUTDOWN]
  · intro h
    by_cases hneg : res < 0 <;>
      simp [onReceived, submissionsOf, h, hneg]

/-- Witness for the resubmission policy at the two concrete results
`-ESHUTDOWN` and `5`. -/
theorem onReceived_resubmit_policy_w :
    submissionsOf 0 (onReceived 0 ⟨[]⟩ (-ESHUTDOWN)).2 = 0 ∧
    submissionsOf 0 (onReceived 0 ⟨[]⟩ 5).2 = 1 :=
  ⟨(onReceived_resubmit_policy 0 ⟨[]⟩ (-ESHUTDOWN)).1 rfl,
   (onReceived_resubmit_policy 0 ⟨[]⟩ 5).2 (by decide)⟩

/-- C2, counterexample: a completion with byte count 0 does invoke the sink
(with the empty payload), so it is not the case that nothing is forwarded
to the sink. -/
theorem onReceived_zero_forwards_cex :
    sinkWrites (onReceived 0 ⟨[7, 7, 7]⟩ 0).2 ≠ [] := by
  decide

/-- C2 (amended): for every non-shutdown result, the handler first issues the
resubmission of the same slot and only then any sink write; the sink is
invoked exactly for the non-negative results — including byte count 0,
where it receives the empty payload — with the first `res` bytes of the
slot's buffer. -/
theorem onReceived_submit_before_forward (i : Nat) (blk : AIOBlock)
    (res : Int) (h : res ≠ -ESHUTDOWN) :
    ∃ rest, (onReceived i blk res).2 = Effect.submit [i] :: rest ∧
      sinkWrites rest =
        (if 0 ≤ res then [blk.buffer.take res.toNat] else []) := by
  by_cases hneg : res < 0
  · exact ⟨[Effect.traceMsg "aio read completion error"],
      by simp [onReceived, h, hneg],
      by simp [sinkWrites, not_le.mpr hneg]⟩
  · exact ⟨[Effect.traceMsg "aio read completion received",
        Effect.writerWrite (blk.buffer.take res.toNat)],
      by simp [onReceived, h, hneg],
      by simp [sinkWrites, not_lt.mp hneg]⟩

/-- Witness for the amended forwarding order at result 0: the slot is
resubmitted first and the sink then receives the empty payload. -/
theorem onReceived_submit_before_forward_w :
    (0 : Int) ≠ -ESHUTDOWN ∧
    ∃ rest, (onReceived 0 ⟨[7]⟩ 0).2 = Effect.submit [0] :: rest ∧
      sinkWrites rest =
        (if (0 : Int) ≤ 0 then [([7] : List Nat).take (0 : Int).toNat] else []) :=
  ⟨by decide, onReceived_submit_before_forward 0 ⟨[7]⟩ 0 (by decide)⟩

/-- C3: `_disable` is idempotent: a second consecutive invocation leaves the
state exactly as after the first and emits no effects at all, in particular
no cancellation requests. -/
theorem disable_idempotent (f : Nat → Bool) (s : CatState) :
    (disableStep f (disableStep f s).1).1 = (disableStep f s).1 ∧
    (disableStep f (disableStep f s).1).2 = [] := by
  by_cases h : s.enabled <;> simp [disableStep, h]

lemma submitsIn_cancelEffects (f : Nat → Bool) (l : List Nat) :
    submitsIn (l.flatMap fun i =>
      Effect.cancel i ::
        (if f i then [Effect.traceMsg "cancelling raised"] else [])) = [] := by
  induction l with
  | nil => rfl
  | cons a t ih =>
      by_cases hf : f a <;>
        simp [submitsIn, hf, List.filterMap_append] at ih ⊢ <;>
        simpa [submitsIn] using ih

lemma submitsIn_disableStep (f : Nat → Bool) (s : CatState) :
    submitsIn (disableStep f s).2 = [] := by
  by_cases h : s.enabled
  · simpa [disableStep, h] using submitsIn_cancelEffects f (List.range s.recvBlockList.length)
  · simp [disableStep, h, submitsIn]

lemma cancel_mem_cancelEffects (f : Nat → Bool) (l : List Nat) (i : Nat)
    (hi : i ∈ l) :
    Effect.cancel i ∈ l.flatMap fun j =>
      Effect.cancel j ::
        (if f j then [Effect.traceMsg "cancelling raised"] else []) := by
  exact List.mem_flatMap.mpr ⟨i, hi, List.mem_cons_self _ _⟩

/-- C4: `onEnable` first runs the idempotent `_disable` (which requests
cancellation of every slot when the function is currently enabled), then
performs exactly one submission, of the entire fixed pool, as its last
effect, and leaves the function marked enabled. -/
theorem onEnable_disable_then_submit (f : Nat → Bool) (s : CatState) :
    submitsIn (onEnableStep f s).2 = [List.range s.recvBlockList.length] ∧
    (onEnableStep f s).2.getLast? =
      some (Effect.submit (List.range s.recvBlockList.length)) ∧
    (onEnableStep f s).1.enabled = true ∧
    (s.enabled = true → ∀ i, i < s.recvBlockList.length →
      Effect.cancel i ∈ (onEnableStep f s).2) := by
  refine ⟨?_, ?_, rfl, ?_⟩
  · have hd := submitsIn_disableStep f s
    simp [onEnableStep, submitsIn, List.filterMap_append] at hd ⊢
    simpa [submitsIn] using hd
  · have hsplit : (onEnableStep f s).2 =
        (Effect.traceMsg "onEnable" :: (disableStep f s).2)
          ++ [Effect.submit (List.range s.recvBlockList.length)] := by
      simp [onEnableStep]
    rw [hsplit, List.getLast?_concat]
  · intro he i hi
    have hmem : Effect.cancel i ∈ (disableStep f s).2 := by
      rw [disableStep, if_pos he]
      exact cancel_mem_cancelEffects f _ i (List.mem_range.mpr hi)
    show Effect.cancel i ∈ Effect.traceMsg "onEnable" ::
      ((disableStep f s).2 ++ [Effect.submit (List.range s.recvBlockList.length)])
    exact List.mem_cons_of_mem _ (List.mem_append_left _ hmem)

/-- Witness for `onEnable` from an enabled two-block state: slot 1 is
cancelled by the leading disable, the unique submission is the whole pool
and comes last, and the state ends enabled. -/
theorem onEnable_disable_then_submit_w :
    (⟨true, [⟨[]⟩, ⟨[]⟩], true⟩ : CatState).enabled = true ∧
    1 < ([⟨[]⟩, ⟨[]⟩] : List AIOBlock).length ∧
    Effect.cancel 1 ∈
      (onEnableStep (fun _ => false) ⟨true, [⟨[]⟩, ⟨[]⟩], true⟩).2 :=
  ⟨rfl, by decide,
    (onEnable_disable_then_submit (fun _ => false)
      ⟨true, [⟨[]⟩, ⟨[]⟩], true⟩).2.2.2 rfl 1 (by decide)⟩

/-- C5: `onUnbind` only clears the `_enabled` flag: no cancellation request
is issued, and the block list and the AIO context are untouched. -/
theorem onUnbind_frame (s : CatState) :
    (onUnbindStep s).1 = { s with enabled := false } ∧
    noCancel (onUnbindStep s).2 = true ∧
    (onUnbindStep s).1.recvBlockList = s.recvBlockList ∧
    (onUnbindStep s).1.aioContextOpen = s.aioContextOpen :=
  ⟨rfl, rfl, rfl, rfl⟩

/-- C6: from an enabled state, `_disable` requests cancellation of every
slot of the pool — also when some requests raise `OSError` (oracle `f`),
which are only traced — and the function ends marked disabled; the
embedding is a total function, so no error propagates. -/
theorem disable_cancels_all (f : Nat → Bool) (s : CatState)
    (h : s.enabled = true) :
    (∀ i, i < s.recvBlockList.length →
      Effect.cancel i ∈ (disableStep f s).2) ∧
    (disableStep f s).1.enabled = false ∧
    (∀ i, i < s.recvBlockList.length → f i = true →
      Effect.traceMsg "cancelling raised" ∈ (disableStep f s).2) := by
  refine ⟨?_, ?_, ?_⟩
  · intro i hi
    rw [disableStep, if_pos h]
    exact cancel_mem_cancelEffects f _ i (List.mem_range.mpr hi)
  · simp [disableStep, h]
  · intro i hi hf
    rw [disableStep, if_pos h]
    exact List.mem_flatMap.mpr
      ⟨i, List.mem_range.mpr hi, by simp [hf]⟩

/-- Witness for `_disable` from an enabled two-block state where cancelling
slot 0 raises: both slots still receive a cancellation request, the raise is
traced, and the state ends disabled. -/
theorem disable_cancels_all_w :
    (⟨true, [⟨[]⟩, ⟨[]⟩], true⟩ : CatState).enabled = true ∧
    Effect.cancel 1 ∈
      (disableStep (fun i => i == 0) ⟨true, [⟨[]⟩, ⟨[]⟩], true⟩).2 ∧
    Effect.traceMsg "cancelling raised" ∈
      (disableStep (fun i => i == 0) ⟨true, [⟨[]⟩, ⟨[]⟩], true⟩).2 :=
  ⟨rfl,
    (disable_cancels_all (fun i => i == 0)
      ⟨true, [⟨[]⟩, ⟨[]⟩], true⟩ rfl).1 1 (by decide),
    (disable_cancels_all (fun i => i == 0)
      ⟨true, [⟨[]⟩, ⟨[]⟩], true⟩ rfl).2.2 0 (by decide) (by decide)⟩

/-- C7: `onAIOCompletion` reads the eventfd counter as its very first
effect, then collects completion events with no requested count — it never
calls `getEvents` with an exact count, whatever the counter reported. -/
theorem onAIOCompletion_drains_then_collects (c : Nat) :
    (onAIOCompletionStep c).head? = some Effect.eventfdRead ∧
    Effect.getEvents Option.none ∈ onAIOCompletionStep c ∧
    ∀ n : Nat, Effect.getEvents (some n) ∉ onAIOCompletionStep c := by
  refine ⟨rfl, by simp [onAIOCompletionStep], ?_⟩
  intro n
  simp [onAIOCompletionStep]

/-- Witness for the completion-notification handler at counter value 5. -/
theorem onAIOCompletion_drains_then_collects_w :
    (onAIOCompletionStep 5).head? = some Effect.eventfdRead ∧
    Effect.getEvents (some 5) ∉ onAIOCompletionStep 5 :=
  ⟨(onAIOCompletion_drains_then_collects 5).1,
   (onAIOCompletion_drains_then_collects 5).2.2 5⟩

/-- C8: the blocking wait transparently retries on any number of
consecutive `EINTR` interruptions and returns the first ready result; an
`IOError` with any other errno is re-raised. -/
theorem noIntrEpoll_retries_on_eintr (n : Nat) (evs : List (Nat × Nat))
    (rest : List PollResult) :
    noIntrEpoll (List.replicate n (PollResult.ioError EINTR)
        ++ PollResult.ready evs :: rest) = some (Except.ok evs) ∧
    (∀ e : Int, e ≠ EINTR →
      noIntrEpoll (PollResult.ioError e :: rest) = some (Except.error e)) := by
  constructor
  · induction n with
    | zero => rfl
    | succ k ih => simpa [noIntrEpoll] using ih
  · intro e he
    simp [noIntrEpoll, he]

/-- Witness for the epoll retry loop: three interruptions before a ready
result, and re-raise of errno 9. -/
theorem noIntrEpoll_retries_on_eintr_w :
    noIntrEpoll (List.replicate 3 (PollResult.ioError EINTR)
        ++ PollResult.ready [(1, 1)] :: []) = some (Except.ok [(1, 1)]) ∧
    (9 : Int) ≠ EINTR ∧
    noIntrEpoll (PollResult.ioError 9 :: []) = some (Except.error 9) :=
  ⟨(noIntrEpoll_retries_on_eintr 3 [(1, 1)] []).1,
   by decide,
   (noIntrEpoll_retries_on_eintr 3 [(1, 1)] []).2 9 (by decide)⟩

lemma resubmitCount_shutdown (i : Nat) : resubmitCount i (-ESHUTDOWN) = 0 := by
  simp [resubmitCount, onReceived, submissionsOf, ESHUTDOWN]

lemma resubmitCount_other (i : Nat) (res : Int) (h : res ≠ -ESHUTDOWN) :
    resubmitCount i res = 1 := by
  by_cases hneg : res < 0 <;>
    simp [resubmitCount, onReceived, submissionsOf, h, hneg]

lemma runTrace_append : ∀ (l1 l2 : List Ev) (s : SysState),
    runTrace (l1 ++ l2) s =
      match runTrace l1 s with
      | some s1 => runTrace l2 s1
      | none => none
  | [], l2, s => by rw [List.nil_append, runTrace]
  | e :: t, l2, s => by
      rw [List.cons_append, runTrace, runTrace]
      cases stepEv e s with
      | none => rfl
      | some s1 => exact runTrace_append t l2 s1

lemma runTrace_drain0 : ∀ (n : Nat) (en : Bool) (p1 : Nat),
    runTrace (List.replicate n (Ev.complete 0 (-ESHUTDOWN))) ⟨en, n, p1⟩
      = some ⟨en, 0, p1⟩
  | 0, en, p1 => by rw [List.replicate_zero, runTrace]
  | Nat.succ k, en, p1 => by
      rw [List.replicate_succ, runTrace]
      have hst : stepEv (Ev.complete 0 (-ESHUTDOWN)) ⟨en, k + 1, p1⟩
          = some ⟨en, k, p1⟩ := by
        simp [stepEv, resubmitCount_shutdown]
      rw [hst]
      exact runTrace_drain0 k en p1

lemma runTrace_drain1 : ∀ (n : Nat) (en : Bool) (p0 : Nat),
    runTrace (List.replicate n (Ev.complete 1 (-ESHUTDOWN))) ⟨en, p0, n⟩
      = some ⟨en, p0, 0⟩
  | 0, en, p0 => by rw [List.replicate_zero, runTrace]
  | Nat.succ k, en, p0 => by
      rw [List.replicate_succ, runTrace]
      have hst : stepEv (Ev.complete 1 (-ESHUTDOWN)) ⟨en, p0, k + 1⟩
          = some ⟨en, p0, k⟩ := by
        simp [stepEv, resubmitCount_shutdown]
      rw [hst]
      exact runTrace_drain1 k en p0

/-- C9, counterexample: the stated invariant fails on races the code is
exposed to.  First trace: the host disables, the kernel aborts slot 0's
read, and the loop processes that shutdown-abort completion before the
disable signal — `_onReceived` retires the slot while `_enabled` is still
true, leaving one slot in flight while enabled.  Second trace: after a
disable, slot 0's cancelled read completes successfully (the
already-complete race) and `_onReceived` resubmits it while disabled;
after slot 1's drain the state is disabled with one slot in flight and no
cancellation pending on it. -/
theorem inflight_claim_cex :
    (runTrace [Ev.enable, Ev.complete 0 (-ESHUTDOWN)] initSys
        = some ⟨true, 0, 1⟩ ∧
      inflightCount ⟨true, 0, 1⟩ = 1) ∧
    (runTrace [Ev.enable, Ev.disable, Ev.complete 0 5,
        Ev.complete 1 (-ESHUTDOWN)] initSys
        = some ⟨false, 1, 0⟩ ∧
      inflightCount ⟨false, 1, 0⟩ = 1) := by
  decide

/-- C9 (amended): over delivery sequences free to contain stray enables,
kernel-initiated shutdown-aborts and the already-complete cancellation
race, the in-flight slot count obeys: every enable leaves the function
enabled with exactly `PENDING_READ_COUNT` slots in flight; no other event
increases the count; a shutdown-abort completion retires exactly one
outstanding operation while any other completion result leaves the number
of outstanding operations unchanged (the slot is resubmitted); delivering
a shutdown-abort to every outstanding operation — what a disabled or
unbound endpoint eventually does — brings the count to 0 without touching
the `_enabled` flag; and the count never exceeds `PENDING_READ_COUNT`. -/
theorem inflight_slot_dynamics :
    (∀ s s' : SysState, stepEv Ev.enable s = some s' →
      s'.enabled = true ∧ inflightCount s' = PENDING_READ_COUNT) ∧
    (∀ (e : Ev) (s s' : SysState), e ≠ Ev.enable → stepEv e s = some s' →
      inflightCount s' ≤ inflightCount s) ∧
    (∀ (i : Nat) (res : Int) (s s' : SysState),
      stepEv (Ev.complete i res) s = some s' →
      (res = -ESHUTDOWN → totalPending s' + 1 = totalPending s) ∧
      (res ≠ -ESHUTDOWN → totalPending s' = totalPending s)) ∧
    (∀ s : SysState,
      runTrace (shutdownDrain s) s
          = some { s with pending0 := 0, pending1 := 0 } ∧
      inflightCount { s with pending0 := 0, pending1 := 0 } = 0 ∧
      SysState.enabled { s with pending0 := 0, pending1 := 0 } = s.enabled) ∧
    (∀ s : SysState, inflightCount s ≤ PENDING_READ_COUNT) := by
  refine ⟨?_, ?_, ?_, ?_, ?_⟩
  · intro s s' h
    rw [stepEv] at h
    rw [← Option.some_inj.mp h]
    exact ⟨rfl, by simp [inflightCount, PENDING_READ_COUNT]⟩
  · intro e s s' hne h
    cases e with
    | enable => exact absurd rfl hne
    | disable =>
        rw [stepEv] at h
        rw [← Option.some_inj.mp h]
        exact le_rfl
    | unbind =>
        rw [stepEv] at h
        rw [← Option.some_inj.mp h]
        exact le_rfl
    | complete i res =>
        rw [stepEv] at h
        by_cases hi0 : i = 0
        · rw [if_pos hi0] at h
          by_cases h0 : s.pending0 = 0
          · rw [if_pos h0] at h
            cases h
          · rw [if_neg h0] at h
            rw [← Option.some_inj.mp h]
            simp only [inflightCount]
            refine Nat.add_le_add ?_ (Nat.le_refl _)
            rw [if_neg h0]
            split <;> omega
        · rw [if_neg hi0] at h
          by_cases hi1 : i = 1
          · rw [if_pos hi1] at h
            by_cases h1 : s.pending1 = 0
            · rw [if_pos h1] at h
              cases h
            · rw [if_neg h1] at h
              rw [← Option.some_inj.mp h]
              simp only [inflightCount]
              refine Nat.add_le_add (Nat.le_refl _) ?_
              rw [if_neg h1]
              split <;> omega
          · rw [if_neg hi1] at h
            cases h
  · intro i res s s' h
    rw [stepEv] at h
    by_cases hi0 : i = 0
    · rw [if_pos hi0] at h
      by_cases h0 : s.pending0 = 0
      · rw [if_pos h0] at h
        cases h
      · rw [if_neg h0] at h
        rw [← Option.some_inj.mp h]
        constructor
        · intro hres
          rw [hres, resubmitCount_shutdown]
          simp only [totalPending]
          omega
        · intro hres
          rw [resubmitCount_other i res hres]
          simp only [totalPending]
          omega
    · rw [if_neg hi0] at h
      by_cases hi1 : i = 1
      · rw [if_pos hi1] at h
        by_cases h1 : s.pending1 = 0
        · rw [if_pos h1] at h
          cases h
        · rw [if_neg h1] at h
          rw [← Option.some_inj.mp h]
          constructor
          · intro hres
            rw [hres, resubmitCount_shutdown]
            simp only [totalPending]
            omega
          · intro hres
            rw [resubmitCount_other i res hres]
            simp only [totalPending]
            omega
      · rw [if_neg hi1] at h
        cases h
  · intro s
    obtain ⟨en, p0, p1⟩ := s
    refine ⟨?_, by simp [inflightCount], rfl⟩
    rw [shutdownDrain, runTrace_append]
    have hd0 := runTrace_drain0 p0 en p1
    simp only at hd0 ⊢
    rw [hd0]
    exact runTrace_drain1 p1 en 0
  · intro s
    simp only [inflightCount, PENDING_READ_COUNT]
    split <;> split <;> omega

/-- Witness for the in-flight dynamics: an enable from the initial state
puts both slots in flight; a shutdown-abort completion does not increase
the count; draining a state with three outstanding operations retires
both slots. -/
theorem inflight_slot_dynamics_w :
    stepEv Ev.enable initSys = some ⟨true, 1, 1⟩ ∧
    inflightCount ⟨true, 1, 1⟩ = PENDING_READ_COUNT ∧
    Ev.complete 0 (-ESHUTDOWN) ≠ Ev.enable ∧
    inflightCount ⟨false, 0, 0⟩ ≤ inflightCount ⟨false, 1, 0⟩ ∧
    runTrace (shutdownDrain ⟨false, 2, 1⟩) ⟨false, 2, 1⟩
      = some ⟨false, 0, 0⟩ :=
  ⟨by decide,
   (inflight_slot_dynamics.1 initSys ⟨true, 1, 1⟩ (by decide)).2,
   by decide,
   inflight_slot_dynamics.2.1 (Ev.complete 0 (-ESHUTDOWN)) ⟨false, 1, 0⟩
     ⟨false, 0, 0⟩ (by decide) (by decide),
   (inflight_slot_dynamics.2.2.2.1 ⟨false, 2, 1⟩).1⟩

/-- C10: a completion with non-negative result `res` passes to the sink
exactly the first `res` bytes of the slot's own buffer — hence never more
bytes than the buffer holds, and each pool buffer holds `BUF_SIZE` bytes —
and the handler returns the very block it was given: the buffer is never
replaced across resubmissions. -/
theorem payload_from_own_buffer (i : Nat) (blk : AIOBlock) (res : Int)
    (h : 0 ≤ res) :
    sinkWrites (onReceived i blk res).2 = [blk.buffer.take res.toNat] ∧
    (∀ p ∈ sinkWrites (onReceived i blk res).2,
      p.length ≤ blk.buffer.length) ∧
    (onReceived i blk res).1 = blk ∧
    (∀ b ∈ mkAioRecvBlockList, b.buffer.length = BUF_SIZE) := by
  have hns : res ≠ -ESHUTDOWN := by
    intro hcon
    rw [hcon] at h
    simp [ESHUTDOWN] at h
  have hnl : ¬ res < 0 := not_lt.mpr h
  refine ⟨?_, ?_, rfl, ?_⟩
  · simp [onReceived, sinkWrites, hns, hnl]
  · intro p hp
    simp [onReceived, sinkWrites, hns, hnl] at hp
    rw [hp]
    simp
  · intro b hb
    simp [mkAioRecvBlockList] at hb
    obtain ⟨-, hb⟩ := hb
    rw [hb]
    simp

/-- Witness for the payload path at result 2 on a three-byte buffer: the
sink receives the first two bytes and the block is returned unchanged. -/
theorem payload_from_own_buffer_w :
    (0 : Int) ≤ 2 ∧
    (onReceived 0 ⟨[10, 20, 30]⟩ 2).1 = ⟨[10, 20, 30]⟩ ∧
    sinkWrites (onReceived 0 ⟨[10, 20, 30]⟩ 2).2 =
      [([10, 20, 30] : List Nat).take (2 : Int).toNat] :=
  ⟨by decide,
   (payload_from_own_buffer 0 ⟨[10, 20, 30]⟩ 2 (by decide)).2.2.1,
   (payload_from_own_buffer 0 ⟨[10, 20, 30]⟩ 2 (by decide)).1⟩
